import Mathlib

/-!
Verification development for the GCP/Firebase provisioning automation tool
(`core/gcp_client.py`, `core/main.py`, `core/application_type.py`).

The Python source is shallowly embedded: HTTP servers are modelled as
functions from the attempt (or call) number, numbered from 1, to the outcome
observed by the client for that attempt; the retry machinery of
`requests.Session` with `urllib3.util.retry.Retry` is embedded by its
documented counting semantics (`total=10` grants ten retries after the
initial attempt); the two unbounded polling loops of
`add_app_to_firebase_project` are embedded with an explicit fuel argument
(the `diverged` outcome stands for "the loop is still running once the fuel
is spent" and corresponds to no behaviour of the Python loop other than
continuing).  Python exceptions are modelled by explicit error values.
-/

/-- JSON values, as produced by `requests.Response.json()`.  Objects are
modelled as association lists in insertion order (the payloads built by the
client never repeat a key). -/
inductive Json where
  | null
  | bool (b : Bool)
  | num (n : Int)
  | str (s : String)
  | arr (xs : List Json)
  | obj (kvs : List (String × Json))

/-- Python truthiness of a decoded JSON value (`if fb_project ...`,
`while not apps ...`): `None`, `False`, `0`, `""`, `[]` and the empty dict
are falsy, everything else is truthy. -/
def pyTruthy : Json → Bool
  | Json.null => false
  | Json.bool b => b
  | Json.num n => n != 0
  | Json.str s => !s.isEmpty
  | Json.arr xs => !xs.isEmpty
  | Json.obj kvs => !kvs.isEmpty

/-- Python exception classes that the embedded client code can raise. -/
inductive PyErr where
  | attributeError
  | typeError
  | indexError
  | keyError
deriving DecidableEq

/-- An HTTP response as seen by the caller of `requests.Session.request`:
its status code and its raw body text. -/
structure Response where
  status : Nat
  body : String
deriving DecidableEq

/-- The outcome of one attempt at the wire level: either a response from the
server (any status code) or a connection-level error. -/
inductive ServerOutcome where
  | resp (r : Response)
  | connError

/-- Transport exceptions raised by `requests` (`requests.exceptions`): a
retry-budget exhaustion (`RetryError`, from `urllib3.exceptions.MaxRetryError`
with `raise_on_status=True`) or a connection failure.  Both are subclasses of
`requests.exceptions.RequestException` and are caught by the `except` clause
of `_execute_api_call` (line 147). -/
inductive ReqError where
  | retryError
  | connectionError
deriving DecidableEq

/-- The transient-failure status set of `_execute_api_call`
(gcp_client.py line 133, `status_forcelist`). -/
def statusForcelist : List Nat := [400, 403, 404, 500, 502, 503, 504]

/-- One `requests.Session.request` call under
`Retry(total=10, status_forcelist=..., method_whitelist=False)`
(gcp_client.py lines 128-146), embedded by urllib3's counting semantics:
`attempt` is the 1-based index of the attempt about to be made and
`remaining` is the current value of `Retry.total`.  A retryable outcome
(a status in the forcelist, or a connection error) decrements the budget and
retries; when the budget would go negative the session raises
(`MaxRetryError`, surfaced by `requests` as a `RequestException`).  The
second component of the result is the index of the last attempt actually
made, i.e. the total number of attempts. -/
def sessionRequestAux (server : Nat → ServerOutcome) :
    Nat → Nat → Except ReqError Response × Nat
  | attempt, remaining =>
    match server attempt with
    | ServerOutcome.resp r =>
      if r.status ∈ statusForcelist then
        match remaining with
        | 0 => (Except.error ReqError.retryError, attempt)
        | rm + 1 => sessionRequestAux server (attempt + 1) rm
      else (Except.ok r, attempt)
    | ServerOutcome.connError =>
      match remaining with
      | 0 => (Except.error ReqError.connectionError, attempt)
      | rm + 1 => sessionRequestAux server (attempt + 1) rm

/-- The session layer of `_execute_api_call`: the `s.request(...)` call on
line 140 with the retry policy of lines 130-135 (initial `Retry.total` is
10). -/
def execute_api_call_run (server : Nat → ServerOutcome) :
    Except ReqError Response × Nat :=
  sessionRequestAux server 1 10

/-- The value `_execute_api_call` hands back to its caller
(gcp_client.py lines 116-156): the response on success; on any
`RequestException` the `except` clause logs and falls off the end of the
function, so the caller receives Python `None`, modelled as `none`. -/
def execute_api_call (server : Nat → ServerOutcome) : Option Response :=
  match (execute_api_call_run server).1 with
  | Except.ok r => some r
  | Except.error _ => none

/-- Whether `_execute_api_call` executed its `except` clause, i.e. logged
the warning of lines 148-156 (together with `logging.exception`). -/
def execute_api_call_warned (server : Nat → ServerOutcome) : Bool :=
  match (execute_api_call_run server).1 with
  | Except.ok _ => false
  | Except.error _ => true

/-- The number of wire-level attempts `_execute_api_call` made. -/
def execute_api_call_attempts (server : Nat → ServerOutcome) : Nat :=
  (execute_api_call_run server).2

theorem sessionRequestAux_succeeds (server : Nat → ServerOutcome) :
    ∀ (remaining attempt k : Nat) (r : Response),
      attempt ≤ k → k ≤ attempt + remaining →
      (∀ n, attempt ≤ n → n < k →
        ∃ rf, server n = ServerOutcome.resp rf ∧ rf.status ∈ statusForcelist) →
      server k = ServerOutcome.resp r → r.status ∉ statusForcelist →
      sessionRequestAux server attempt remaining = (Except.ok r, k) := by
  intro remaining
  induction remaining with
  | zero =>
    intro attempt k r hle hub _hfail hs hr
    have hk : attempt = k := Nat.le_antisymm hle (by omega)
    subst hk
    simp only [sessionRequestAux, hs, if_neg hr]
  | succ rm ih =>
    intro attempt k r hle hub hfail hs hr
    by_cases hak : attempt = k
    · subst hak
      simp only [sessionRequestAux, hs, if_neg hr]
    · have hlt : attempt < k := Nat.lt_of_le_of_ne hle hak
      obtain ⟨rf, hrf, hmem⟩ := hfail attempt (Nat.le_refl _) hlt
      simp only [sessionRequestAux, hrf, if_pos hmem]
      exact ih (attempt + 1) k r (by omega) (by omega)
        (fun n h1 h2 => hfail n (by omega) h2) hs hr

theorem sessionRequestAux_exhausts (server : Nat → ServerOutcome) :
    ∀ (remaining attempt : Nat),
      (∀ n, attempt ≤ n → n ≤ attempt + remaining →
        ∃ rf, server n = ServerOutcome.resp rf ∧ rf.status ∈ statusForcelist) →
      sessionRequestAux server attempt remaining =
        (Except.error ReqError.retryError, attempt + remaining) := by
  intro remaining
  induction remaining with
  | zero =>
    intro attempt hfail
    obtain ⟨rf, hrf, hmem⟩ := hfail attempt (Nat.le_refl _) (by omega)
    simp only [sessionRequestAux, hrf, if_pos hmem, Nat.add_zero]
  | succ rm ih =>
    intro attempt hfail
    obtain ⟨rf, hrf, hmem⟩ := hfail attempt (Nat.le_refl _) (by omega)
    simp only [sessionRequestAux, hrf, if_pos hmem]
    have := ih (attempt + 1) (fun n h1 h2 => hfail n (by omega) (by omega))
    rw [this]
    have harith : attempt + 1 + rm = attempt + (rm + 1) := by omega
    rw [harith]

/-- C9: a response whose status is outside the transient-failure set is
returned to the caller unchanged after exactly one attempt, with no retry. -/
theorem c9_non_listed_status_single_attempt (server : Nat → ServerOutcome)
    (r : Response) (h1 : server 1 = ServerOutcome.resp r)
    (h2 : r.status ∉ statusForcelist) :
    execute_api_call server = some r ∧ execute_api_call_attempts server = 1 := by
  have hrun : execute_api_call_run server = (Except.ok r, 1) := by
    unfold execute_api_call_run
    simp only [sessionRequestAux, h1, if_neg h2]
  constructor
  · unfold execute_api_call
    rw [hrun]
  · unfold execute_api_call_attempts
    rw [hrun]

/-- Server used in the C9 witness: answers 401 (not in the transient set)
to the first attempt. -/
def unauthorizedServer : Nat → ServerOutcome :=
  fun _ => ServerOutcome.resp ⟨401, "unauthorized"⟩

/-- Witness for C9 at the concrete 401 server. -/
theorem c9_witness :
    execute_api_call unauthorizedServer = some ⟨401, "unauthorized"⟩ ∧
    execute_api_call_attempts unauthorizedServer = 1 :=
  c9_non_listed_status_single_attempt unauthorizedServer
    ⟨401, "unauthorized"⟩ rfl (by decide)

/-- C7: every transport-level failure of the session layer (connection
error or retry exhaustion) is absorbed by the `except` clause: the caller
receives the sentinel absent response `none` together with the logged
warning, and no exception propagates past `_execute_api_call`. -/
theorem c7_executor_never_raises (server : Nat → ServerOutcome)
    (e : ReqError) (herr : (execute_api_call_run server).1 = Except.error e) :
    execute_api_call server = none ∧ execute_api_call_warned server = true := by
  constructor
  · unfold execute_api_call
    rw [herr]
  · unfold execute_api_call_warned
    rw [herr]

/-- Server used in the C7 witness: every attempt fails at the connection
level, so the retry budget is exhausted and the session raises. -/
def alwaysConnFailServer : Nat → ServerOutcome :=
  fun _ => ServerOutcome.connError

/-- Witness for C7 at the concrete always-failing server. -/
theorem c7_witness :
    execute_api_call alwaysConnFailServer = none ∧
    execute_api_call_warned alwaysConnFailServer = true :=
  c7_executor_never_raises alwaysConnFailServer ReqError.connectionError rfl

/-- Server refuting C1 as stated: a retryable 500 on attempts 1..10 and a
success on attempt 11. -/
def lateSuccessServer : Nat → ServerOutcome :=
  fun n => if n ≤ 10 then ServerOutcome.resp ⟨500, "server error"⟩
           else ServerOutcome.resp ⟨200, "ok"⟩

/-- C1 counterexample: with `Retry(total=10)` the budget counts retries,
not attempts, so a server that succeeds on attempt k = 11 > 10 still gets
its success returned after 11 total attempts — `_execute_api_call` does not
surface an absent response for k = 11 as the claim states. -/
theorem c1_counterexample :
    execute_api_call lateSuccessServer = some ⟨200, "ok"⟩ ∧
    execute_api_call_attempts lateSuccessServer = 11 ∧
    execute_api_call lateSuccessServer ≠ none := by
  refine ⟨rfl, rfl, ?_⟩
  intro h
  exact Option.noConfusion h

/-- C1 (amended): with retryable statuses on attempts 1..k-1 and a success
on attempt k, the executor retries exactly k-1 times and returns the success
for every k ≤ 11 (up to 11 attempts total: `Retry(total=10)` grants ten
retries after the initial attempt); for k > 11 it stops after 11 attempts
(10 retries) and surfaces the sentinel absent response. -/
theorem c1_amended_retry_budget (server : Nat → ServerOutcome) (k : Nat)
    (r : Response) (hk : 1 ≤ k)
    (hfail : ∀ n, 1 ≤ n → n < k →
      ∃ rf, server n = ServerOutcome.resp rf ∧ rf.status ∈ statusForcelist)
    (hs : server k = ServerOutcome.resp r) (hr : r.status ∉ statusForcelist) :
    (k ≤ 11 →
      execute_api_call server = some r ∧ execute_api_call_attempts server = k) ∧
    (11 < k →
      execute_api_call server = none ∧ execute_api_call_attempts server = 11) := by
  constructor
  · intro hub
    have hrun : execute_api_call_run server = (Except.ok r, k) :=
      sessionRequestAux_succeeds server 10 1 k r hk (by omega) hfail hs hr
    constructor
    · unfold execute_api_call
      rw [hrun]
    · unfold execute_api_call_attempts
      rw [hrun]
  · intro hub
    have hrun : execute_api_call_run server =
        (Except.error ReqError.retryError, 11) := by
      have := sessionRequestAux_exhausts server 10 1
        (fun n h1 h2 => hfail n h1 (by omega))
      unfold execute_api_call_run
      rw [this]
    constructor
    · unfold execute_api_call
      rw [hrun]
    · unfold execute_api_call_attempts
      rw [hrun]

/-- Server used in the C1 witness: 503 on the first attempt, success on the
second. -/
def oneFailureServer : Nat → ServerOutcome :=
  fun n => if n = 1 then ServerOutcome.resp ⟨503, "unavailable"⟩
           else ServerOutcome.resp ⟨200, "created"⟩

/-- Witness for the amended C1 at k = 2. -/
theorem c1_witness :
    execute_api_call oneFailureServer = some ⟨200, "created"⟩ ∧
    execute_api_call_attempts oneFailureServer = 2 :=
  (c1_amended_retry_budget oneFailureServer 2 ⟨200, "created"⟩ (by decide)
    (fun n h1 h2 => ⟨⟨503, "unavailable"⟩, by
      have hn : n = 1 := by omega
      subst hn
      exact rfl, by decide⟩)
    rfl (by decide)).1 (by decide)

/-- The application platforms of `application_type.py`
(`ApplicationType.ANDROID, IOS = range(2)`). -/
inductive ApplicationType where
  | ANDROID
  | IOS
deriving DecidableEq

/-- Observable actions performed by `add_app_to_firebase_project`
(gcp_client.py lines 233-322): a GET of the Firebase project (with the
JSON body of the response, `none` when the executor returned no response),
a `time.sleep`, the application-create POST (recording the platform and the
request body), and a GET of the application listing. -/
inductive Event where
  | fetchProject (resp : Option Json)
  | sleep (secs : Nat)
  | createApp (t : ApplicationType) (body : Json)
  | fetchApps (resp : Option Json)

/-- Python comparison `value == some_string` for a value obtained from
`dict.get`: true exactly when the value is present and is that string. -/
def strEqValue (v : Option Json) (s : String) : Bool :=
  match v with
  | some (Json.str t) => t == s
  | _ => false

/-- The break condition of the project-activation loop (gcp_client.py
lines 270-274): `fb_project and fb_project.get("projectId") ==
fb_project_id and fb_project.get("state") == "ACTIVE"`.  A falsy value
short-circuits to false before any `.get`; a truthy non-dict value raises
`AttributeError` at `.get`. -/
def activationPred (pid : String) (j : Json) : Except PyErr Bool :=
  if pyTruthy j then
    match j with
    | Json.obj kvs =>
      Except.ok (strEqValue (List.lookup "projectId" kvs) pid &&
                 strEqValue (List.lookup "state" kvs) "ACTIVE")
    | _ => Except.error PyErr.attributeError
  else Except.ok false

/-- Result of one of the embedded unbounded loops: `ok` when the loop broke
with the given value, `err` when the Python code raised, `diverged` when the
explicit fuel ran out while the source loop would still be iterating. -/
inductive PollOutcome (α : Type) where
  | ok (a : α)
  | err (e : PyErr)
  | diverged

/-- The project-activation `while True` loop of `add_app_to_firebase_project`
(gcp_client.py lines 262-278).  `fetch call` is the JSON body of the
response of the `call`-th `_fetch_firebase_project` request (`none` when
`_execute_api_call` returned no response, in which case the source raises
`AttributeError` on `.json()`).  `call` is 1-based; `secs` is `fb_seconds`
(initially 1).  The returned list records the events in order. -/
def activationLoop (fetch : Nat → Option Json) (pid : String) :
    Nat → Nat → Nat → PollOutcome Json × List Event
  | 0, _, _ => (PollOutcome.diverged, [])
  | fuel + 1, call, secs =>
    match fetch call with
    | none => (PollOutcome.err PyErr.attributeError, [Event.fetchProject none])
    | some j =>
      match activationPred pid j with
      | Except.error e => (PollOutcome.err e, [Event.fetchProject (some j)])
      | Except.ok true => (PollOutcome.ok j, [Event.fetchProject (some j)])
      | Except.ok false =>
        match activationLoop fetch pid fuel (call + 1) (secs + 1) with
        | (res, evs) =>
          (res, Event.fetchProject (some j) :: Event.sleep secs :: evs)

/-- The application-registration `while not apps` loop of
`add_app_to_firebase_project` (gcp_client.py lines 304-315): it sleeps
`apps_seconds` (initially 0) before every listing request, increments the
delay by one per iteration, and exits as soon as the decoded listing is
truthy.  An executor failure (`none`) raises `AttributeError` on `.json()`. -/
def appsLoop (fetch : Nat → Option Json) :
    Nat → Nat → Nat → PollOutcome Json × List Event
  | 0, _, _ => (PollOutcome.diverged, [])
  | fuel + 1, call, secs =>
    match fetch call with
    | none =>
      (PollOutcome.err PyErr.attributeError,
       [Event.sleep secs, Event.fetchApps none])
    | some j =>
      if pyTruthy j then
        (PollOutcome.ok j, [Event.sleep secs, Event.fetchApps (some j)])
      else
        match appsLoop fetch fuel (call + 1) (secs + 1) with
        | (res, evs) =>
          (res, Event.sleep secs :: Event.fetchApps (some j) :: evs)

/-- The post-loop extraction `apps.get("apps")[0].get("appId")`
(gcp_client.py lines 319-320), with Python's error behaviour at each step:
subscripting `None` or a non-sequence raises `TypeError`, subscripting an
empty sequence raises `IndexError`, and `.get` on a non-dict raises
`AttributeError`.  On success the result is the value of the first listed
application's `appId` key (`none` models Python `None` when the key is
missing). -/
def extractAppId (apps : Json) : Except PyErr (Option Json) :=
  match apps with
  | Json.obj kvs =>
    match List.lookup "apps" kvs with
    | some (Json.arr (a :: _)) =>
      match a with
      | Json.obj akvs => Except.ok (List.lookup "appId" akvs)
      | _ => Except.error PyErr.attributeError
    | some (Json.arr []) => Except.error PyErr.indexError
    | some (Json.str s) =>
      if s.isEmpty then Except.error PyErr.indexError
      else Except.error PyErr.attributeError
    | some (Json.obj _) => Except.error PyErr.keyError
    | some _ => Except.error PyErr.typeError
    | none => Except.error PyErr.typeError
  | _ => Except.error PyErr.attributeError

/-- The request body built by `add_app_to_firebase_project`
(gcp_client.py lines 283-294), as an insertion-ordered dict: Android gets
`packageName`; every other platform gets `bundleId` plus, when a store id
was given, `appStoreId`; both variants append `displayName` last when an
application name was given. -/
def buildAppBody (package_name : String) (app_name store_id : Option String)
    (app_type : ApplicationType) : List (String × Json) :=
  (match app_type with
   | ApplicationType.ANDROID => [("packageName", Json.str package_name)]
   | ApplicationType.IOS =>
     ("bundleId", Json.str package_name) ::
     (match store_id with
      | some s => [("appStoreId", Json.str s)]
      | none => [])) ++
  (match app_name with
   | some a => [("displayName", Json.str a)]
   | none => [])

/-- The whole of `add_app_to_firebase_project` (gcp_client.py lines
233-322): run the activation poll; once it breaks, issue the
application-create POST (whose response `createResp` the source discards —
line 300 binds nothing), run the registration poll, and extract the first
listed application's identifier.  `projectFetch`/`appsFetch` give the JSON
bodies of the successive GET responses, `none` marking an absent executor
response. -/
def add_app_to_firebase_project (projectFetch appsFetch : Nat → Option Json)
    (createResp : Option Json) (fb_project_id package_name : String)
    (app_name store_id : Option String) (app_type : ApplicationType)
    (fuel1 fuel2 : Nat) : PollOutcome (Option Json) × List Event :=
  match activationLoop projectFetch fb_project_id fuel1 1 1 with
  | (PollOutcome.ok _, evs1) =>
    match appsLoop appsFetch fuel2 1 0 with
    | (r2, evs2) =>
      ((match r2 with
        | PollOutcome.ok apps =>
          match extractAppId apps with
          | Except.ok aid => PollOutcome.ok aid
          | Except.error e => PollOutcome.err e
        | PollOutcome.err e => PollOutcome.err e
        | PollOutcome.diverged => PollOutcome.diverged),
       evs1 ++
         Event.createApp app_type
           (Json.obj (buildAppBody package_name app_name store_id app_type)) ::
         evs2)
  | (PollOutcome.err e, evs1) => (PollOutcome.err e, evs1)
  | (PollOutcome.diverged, evs1) => (PollOutcome.diverged, evs1)

/-- The list `[s, s+1, ..., s+n-1]`, used to describe the linear-backoff
delay schedules of the two polls. -/
def countUpFrom : Nat → Nat → List Nat
  | _, 0 => []
  | s, n + 1 => s :: countUpFrom (s + 1) n

/-- The sequence of `time.sleep` durations in an event trace, in order. -/
def pollDelays : List Event → List Nat
  | [] => []
  | Event.sleep s :: es => s :: pollDelays es
  | _ :: es => pollDelays es

/-- How many project GETs an event trace contains. -/
def countFetchProject : List Event → Nat
  | [] => 0
  | Event.fetchProject _ :: es => countFetchProject es + 1
  | _ :: es => countFetchProject es

/-- How many application-listing GETs an event trace contains. -/
def countFetchApps : List Event → Nat
  | [] => 0
  | Event.fetchApps _ :: es => countFetchApps es + 1
  | _ :: es => countFetchApps es

/-- The event trace of a project-activation poll that fails its predicate
`m` times and succeeds on fetch `m+1`, starting at call number `call` with
`fb_seconds = secs`. -/
def activationTrace (fetch : Nat → Option Json) : Nat → Nat → Nat → List Event
  | 0, call, _ => [Event.fetchProject (fetch call)]
  | m + 1, call, secs =>
    Event.fetchProject (fetch call) :: Event.sleep secs ::
      activationTrace fetch m (call + 1) (secs + 1)

/-- The event trace of an application-registration poll that sees a falsy
listing `m` times and a truthy one on fetch `m+1`. -/
def appsTrace (fetch : Nat → Option Json) : Nat → Nat → Nat → List Event
  | 0, call, secs => [Event.sleep secs, Event.fetchApps (fetch call)]
  | m + 1, call, secs =>
    Event.sleep secs :: Event.fetchApps (fetch call) ::
      appsTrace fetch m (call + 1) (secs + 1)

theorem pollDelays_activationTrace (fetch : Nat → Option Json) :
    ∀ (m call secs : Nat),
      pollDelays (activationTrace fetch m call secs) = countUpFrom secs m := by
  intro m
  induction m with
  | zero => intro call secs; rfl
  | succ m ih =>
    intro call secs
    simp only [activationTrace, pollDelays, countUpFrom, ih]

theorem countFetchProject_activationTrace (fetch : Nat → Option Json) :
    ∀ (m call secs : Nat),
      countFetchProject (activationTrace fetch m call secs) = m + 1 := by
  intro m
  induction m with
  | zero => intro call secs; rfl
  | succ m ih =>
    intro call secs
    simp only [activationTrace, countFetchProject, ih]

theorem pollDelays_appsTrace (fetch : Nat → Option Json) :
    ∀ (m call secs : Nat),
      pollDelays (appsTrace fetch m call secs) = countUpFrom secs (m + 1) := by
  intro m
  induction m with
  | zero => intro call secs; rfl
  | succ m ih =>
    intro call secs
    simp only [appsTrace, pollDelays, countUpFrom, ih]

theorem countFetchApps_appsTrace (fetch : Nat → Option Json) :
    ∀ (m call secs : Nat),
      countFetchApps (appsTrace fetch m call secs) = m + 1 := by
  intro m
  induction m with
  | zero => intro call secs; rfl
  | succ m ih =>
    intro call secs
    simp only [appsTrace, countFetchApps, ih]

theorem chain_le_countUpFrom :
    ∀ (n s : Nat), List.Chain' (fun a b => a ≤ b) (countUpFrom s n) := by
  intro n
  induction n with
  | zero => intro s; simp [countUpFrom]
  | succ n ih =>
    intro s
    cases n with
    | zero => simp [countUpFrom]
    | succ n' =>
      have hc : countUpFrom s (n' + 1 + 1) =
          s :: countUpFrom (s + 1) (n' + 1) := rfl
      rw [hc]
      have hc2 : countUpFrom (s + 1) (n' + 1) =
          (s + 1) :: countUpFrom (s + 1 + 1) n' := rfl
      rw [hc2]
      apply List.Chain'.cons
      · omega
      · rw [← hc2]
        exact ih (s + 1)

/-- Characterization of a converging project-activation poll: present
responses failing the break condition on calls `call..call+m-1` and a
response satisfying it on call `call+m` make the loop break with that
project after exactly those fetches, emitting the expected trace. -/
theorem activationLoop_spec (fetch : Nat → Option Json) (pid : String) :
    ∀ (m fuel call secs : Nat) (jp : Json),
      (∀ n, call ≤ n → n < call + m →
        ∃ j, fetch n = some j ∧ activationPred pid j = Except.ok false) →
      fetch (call + m) = some jp →
      activationPred pid jp = Except.ok true →
      m < fuel →
      activationLoop fetch pid fuel call secs =
        (PollOutcome.ok jp, activationTrace fetch m call secs) := by
  intro m
  induction m with
  | zero =>
    intro fuel call secs jp _hfail hs hp hfuel
    cases fuel with
    | zero => omega
    | succ f =>
      rw [Nat.add_zero] at hs
      simp only [activationLoop, activationTrace, hs, hp]
  | succ m ih =>
    intro fuel call secs jp hfail hs hp hfuel
    cases fuel with
    | zero => omega
    | succ f =>
      obtain ⟨j0, hf0, hp0⟩ := hfail call (Nat.le_refl _) (by omega)
      have hs' : fetch (call + 1 + m) = some jp := by
        have harith : call + 1 + m = call + (m + 1) := by omega
        rw [harith]
        exact hs
      have hrec := ih f (call + 1) (secs + 1) jp
        (fun n h1 h2 => hfail n (by omega) (by omega)) hs' hp (by omega)
      simp only [activationLoop, activationTrace, hf0, hp0, hrec]

/-- Characterization of a converging application-registration poll. -/
theorem appsLoop_spec (fetch : Nat → Option Json) :
    ∀ (m fuel call secs : Nat) (ja : Json),
      (∀ n, call ≤ n → n < call + m →
        ∃ j, fetch n = some j ∧ pyTruthy j = false) →
      fetch (call + m) = some ja →
      pyTruthy ja = true →
      m < fuel →
      appsLoop fetch fuel call secs =
        (PollOutcome.ok ja, appsTrace fetch m call secs) := by
  intro m
  induction m with
  | zero =>
    intro fuel call secs ja _hfail hs ht hfuel
    cases fuel with
    | zero => omega
    | succ f =>
      rw [Nat.add_zero] at hs
      simp only [appsLoop, appsTrace, hs, ht, if_true]
  | succ m ih =>
    intro fuel call secs ja hfail hs ht hfuel
    cases fuel with
    | zero => omega
    | succ f =>
      obtain ⟨j0, hf0, ht0⟩ := hfail call (Nat.le_refl _) (by omega)
      have hs' : fetch (call + 1 + m) = some ja := by
        have harith : call + 1 + m = call + (m + 1) := by omega
        rw [harith]
        exact hs
      have hrec := ih f (call + 1) (secs + 1) ja
        (fun n h1 h2 => hfail n (by omega) (by omega)) hs' ht (by omega)
      simp only [appsLoop, appsTrace, hf0, ht0, hrec, Bool.false_eq_true,
        if_false]

/-- C5: with fetches returning a project failing the break condition on the
first N calls and a satisfying one on call N+1, the project-activation poll
performs exactly N+1 fetches and then proceeds; the sleeps after the
unsuccessful attempts are 1, 2, ..., N time units — starting at 1,
incremented by 1 each time, hence monotonically non-decreasing. -/
theorem c5_activation_poll_converges (fetch : Nat → Option Json)
    (pid : String) (N fuel : Nat) (jp : Json)
    (hfail : ∀ n, 1 ≤ n → n ≤ N →
      ∃ j, fetch n = some j ∧ activationPred pid j = Except.ok false)
    (hs : fetch (N + 1) = some jp)
    (hp : activationPred pid jp = Except.ok true) (hfuel : N < fuel) :
    activationLoop fetch pid fuel 1 1 =
      (PollOutcome.ok jp, activationTrace fetch N 1 1) ∧
    countFetchProject (activationTrace fetch N 1 1) = N + 1 ∧
    pollDelays (activationTrace fetch N 1 1) = countUpFrom 1 N ∧
    List.Chain' (fun a b => a ≤ b)
      (pollDelays (activationTrace fetch N 1 1)) := by
  have hs' : fetch (1 + N) = some jp := by
    rw [Nat.add_comm]
    exact hs
  refine ⟨activationLoop_spec fetch pid N fuel 1 1 jp
      (fun n h1 h2 => hfail n h1 (by omega)) hs' hp hfuel,
    countFetchProject_activationTrace fetch N 1 1,
    pollDelays_activationTrace fetch N 1 1, ?_⟩
  rw [pollDelays_activationTrace fetch N 1 1]
  exact chain_le_countUpFrom N 1

/-- Project JSON used in witnesses: id `p1`, state `ACTIVE`. -/
def activeProject : Json :=
  Json.obj [("projectId", Json.str "p1"), ("state", Json.str "ACTIVE")]

/-- Project JSON used in witnesses: id `p1`, state `CREATING` (fails the
break condition). -/
def creatingProject : Json :=
  Json.obj [("projectId", Json.str "p1"), ("state", Json.str "CREATING")]

/-- Fetch used in the C5 witness: a not-yet-active project on call 1, an
active one from call 2 on. -/
def slowProjectFetch : Nat → Option Json :=
  fun n => if n = 1 then some creatingProject else some activeProject

/-- Witness for C5 at N = 1. -/
theorem c5_witness :
    activationLoop slowProjectFetch "p1" 2 1 1 =
      (PollOutcome.ok activeProject, activationTrace slowProjectFetch 1 1 1) ∧
    countFetchProject (activationTrace slowProjectFetch 1 1 1) = 2 ∧
    pollDelays (activationTrace slowProjectFetch 1 1 1) = countUpFrom 1 1 ∧
    List.Chain' (fun a b => a ≤ b)
      (pollDelays (activationTrace slowProjectFetch 1 1 1)) :=
  c5_activation_poll_converges slowProjectFetch "p1" 1 2 activeProject
    (fun n h1 h2 => ⟨creatingProject, by
      have hn : n = 1 := by omega
      subst hn
      exact rfl, rfl⟩)
    rfl rfl (by decide)

theorem lookup_some_ne_nil {β : Type} (a : String) (l : List (String × β))
    (b : β) (h : List.lookup a l = some b) : l ≠ [] := by
  intro hnil
  subst hnil
  simp [List.lookup] at h

/-- C2: with an activation poll that has broken, empty listings (`{}`) on
the first N listing calls and a listing carrying one application on call
N+1, `add_app_to_firebase_project` returns the `appId` of that first listed
element after exactly N+1 listing calls; the sleep before the first listing
call is 0 (immediate first attempt) and grows by 1 per retry: the delays
are 0, 1, ..., N. -/
theorem c2_registration_poll_returns_first_app_id
    (projectFetch appsFetch : Nat → Option Json) (createResp : Option Json)
    (pid pkg : String) (an sid : Option String) (t : ApplicationType)
    (fuel1 fuel2 N : Nat) (jp : Json) (evs1 : List Event)
    (kvs akvs : List (String × Json)) (aid : Json)
    (hact : activationLoop projectFetch pid fuel1 1 1 =
      (PollOutcome.ok jp, evs1))
    (hempty : ∀ n, 1 ≤ n → n ≤ N → appsFetch n = some (Json.obj []))
    (hlist : appsFetch (N + 1) = some (Json.obj kvs))
    (happs : List.lookup "apps" kvs = some (Json.arr [Json.obj akvs]))
    (haid : List.lookup "appId" akvs = some aid)
    (hfuel : N < fuel2) :
    add_app_to_firebase_project projectFetch appsFetch createResp pid pkg
        an sid t fuel1 fuel2 =
      (PollOutcome.ok (some aid),
       evs1 ++
         Event.createApp t (Json.obj (buildAppBody pkg an sid t)) ::
         appsTrace appsFetch N 1 0) ∧
    countFetchApps (appsTrace appsFetch N 1 0) = N + 1 ∧
    pollDelays (appsTrace appsFetch N 1 0) = countUpFrom 0 (N + 1) := by
  have hkvs : kvs ≠ [] := lookup_some_ne_nil "apps" kvs _ happs
  have htruthy : pyTruthy (Json.obj kvs) = true := by
    cases kvs with
    | nil => exact absurd rfl hkvs
    | cons a l => rfl
  have hs' : appsFetch (1 + N) = some (Json.obj kvs) := by
    rw [Nat.add_comm]
    exact hlist
  have happsloop := appsLoop_spec appsFetch N fuel2 1 0 (Json.obj kvs)
    (fun n h1 h2 => ⟨Json.obj [], hempty n h1 (by omega), rfl⟩)
    hs' htruthy hfuel
  have hextract : extractAppId (Json.obj kvs) = Except.ok (some aid) := by
    simp only [extractAppId, happs, haid]
  refine ⟨?_, countFetchApps_appsTrace appsFetch N 1 0,
    pollDelays_appsTrace appsFetch N 1 0⟩
  unfold add_app_to_firebase_project
  rw [hact, happsloop]
  simp only [hextract]

/-- Listing JSON used in witnesses: one Android application with id
`app-id-1`. -/
def oneAppListing : Json :=
  Json.obj [("apps",
    Json.arr [Json.obj [("name", Json.str "projects/p1/androidApps/app-id-1"),
                        ("appId", Json.str "app-id-1")]])]

/-- Listing fetch used in witnesses: empty object on call 1, the one-element
listing from call 2 on. -/
def slowAppsFetch : Nat → Option Json :=
  fun n => if n = 1 then some (Json.obj []) else some oneAppListing

/-- Witness for C2 at N = 1, with the activation poll converging on its
first call. -/
theorem c2_witness :
    add_app_to_firebase_project (fun _ => some activeProject) slowAppsFetch
        none "p1" "com.test.app.project" none none ApplicationType.ANDROID
        1 2 =
      (PollOutcome.ok (some (Json.str "app-id-1")),
       [Event.fetchProject (some activeProject)] ++
         Event.createApp ApplicationType.ANDROID
           (Json.obj (buildAppBody "com.test.app.project" none none
             ApplicationType.ANDROID)) ::
         appsTrace slowAppsFetch 1 1 0) ∧
    countFetchApps (appsTrace slowAppsFetch 1 1 0) = 2 ∧
    pollDelays (appsTrace slowAppsFetch 1 1 0) = countUpFrom 0 2 :=
  c2_registration_poll_returns_first_app_id (fun _ => some activeProject)
    slowAppsFetch none "p1" "com.test.app.project" none none
    ApplicationType.ANDROID 1 2 1 activeProject
    [Event.fetchProject (some activeProject)]
    [("apps",
      Json.arr [Json.obj [("name", Json.str "projects/p1/androidApps/app-id-1"),
                          ("appId", Json.str "app-id-1")]])]
    [("name", Json.str "projects/p1/androidApps/app-id-1"),
     ("appId", Json.str "app-id-1")]
    (Json.str "app-id-1")
    rfl
    (fun n h1 h2 => by
      have hn : n = 1 := by omega
      subst hn
      exact rfl)
    rfl rfl rfl (by decide)

/-- Fetch refuting C3: the executor yields no response on call 1, while
every later call would return a fully active project. -/
def absentThenActiveFetch : Nat → Option Json :=
  fun n => if n = 1 then none else some activeProject

/-- C3 counterexample: when the Call Executor returns an absent response,
the activation poll does not treat it as "no usable data" and continue — it
calls `.json()` on `None` and the stage fails with `AttributeError` after
the first fetch, even though the very next call would have satisfied the
predicate. -/
theorem c3_counterexample :
    activationLoop absentThenActiveFetch "p1" 5 1 1 =
      (PollOutcome.err PyErr.attributeError, [Event.fetchProject none]) ∧
    absentThenActiveFetch 2 = some activeProject ∧
    activationPred "p1" activeProject = Except.ok true :=
  ⟨rfl, rfl, rfl⟩

/-- C3 (amended): a present but partial response — one whose decoded JSON
fails the stage's predicate — is treated as "no usable data" and both polls
simply continue with the next attempt until a satisfying response arrives;
an absent response, by contrast, makes the stage raise `AttributeError` on
`.json()` (see the counterexample). -/
theorem c3_partial_responses_continue (pid : String)
    (projectFetch appsFetch : Nat → Option Json) (N M fuel1 fuel2 : Nat)
    (jp ja : Json)
    (hp1 : ∀ n, 1 ≤ n → n ≤ N →
      ∃ j, projectFetch n = some j ∧ activationPred pid j = Except.ok false)
    (hp2 : projectFetch (N + 1) = some jp)
    (hp3 : activationPred pid jp = Except.ok true) (hp4 : N < fuel1)
    (ha1 : ∀ n, 1 ≤ n → n ≤ M →
      ∃ j, appsFetch n = some j ∧ pyTruthy j = false)
    (ha2 : appsFetch (M + 1) = some ja)
    (ha3 : pyTruthy ja = true) (ha4 : M < fuel2) :
    (activationLoop projectFetch pid fuel1 1 1).1 = PollOutcome.ok jp ∧
    (appsLoop appsFetch fuel2 1 0).1 = PollOutcome.ok ja := by
  have h1 := activationLoop_spec projectFetch pid N fuel1 1 1 jp
    (fun n hn1 hn2 => hp1 n hn1 (by omega))
    (by rw [Nat.add_comm]; exact hp2) hp3 hp4
  have h2 := appsLoop_spec appsFetch M fuel2 1 0 ja
    (fun n hn1 hn2 => ha1 n hn1 (by omega))
    (by rw [Nat.add_comm]; exact ha2) ha3 ha4
  rw [h1, h2]
  exact ⟨rfl, rfl⟩

/-- Witness for the amended C3 at N = M = 1, with partial responses (a
not-yet-active project, an empty listing) preceding the satisfying ones. -/
theorem c3_witness :
    (activationLoop slowProjectFetch "p1" 2 1 1).1 =
      PollOutcome.ok activeProject ∧
    (appsLoop slowAppsFetch 2 1 0).1 = PollOutcome.ok oneAppListing :=
  c3_partial_responses_continue "p1" slowProjectFetch slowAppsFetch 1 1 2 2
    activeProject oneAppListing
    (fun n h1 h2 => ⟨creatingProject, by
      have hn : n = 1 := by omega
      subst hn
      exact rfl, rfl⟩)
    rfl rfl (by decide)
    (fun n h1 h2 => ⟨Json.obj [], by
      have hn : n = 1 := by omega
      subst hn
      exact rfl, rfl⟩)
    rfl rfl (by decide)

/-- C10: `add_app_to_firebase_project` discards the response of the
application-create POST (line 300 binds nothing), so two runs differing
only in that response — including an absent one — produce identical results
and identical event traces. -/
theorem c10_create_response_ignored
    (projectFetch appsFetch : Nat → Option Json) (r1 r2 : Option Json)
    (pid pkg : String) (an sid : Option String) (t : ApplicationType)
    (fuel1 fuel2 : Nat) :
    add_app_to_firebase_project projectFetch appsFetch r1 pid pkg an sid t
        fuel1 fuel2 =
      add_app_to_firebase_project projectFetch appsFetch r2 pid pkg an sid t
        fuel1 fuel2 := rfl


theorem mem_exists_get {α : Type} (a : α) :
    ∀ (l : List α), a ∈ l → ∃ i, ∃ h : i < l.length, l.get ⟨i, h⟩ = a := by
  intro l
  induction l with
  | nil => intro h; cases h
  | cons x xs ih =>
    intro h
    cases h with
    | head => exact ⟨0, by simp, rfl⟩
    | tail _ htail =>
      obtain ⟨i, hi, hget⟩ := ih htail
      exact ⟨i + 1, by simp; omega, hget⟩

theorem get_append_left {α : Type} :
    ∀ (l₁ l₂ : List α) (i : Nat) (h : i < l₁.length)
      (h2 : i < (l₁ ++ l₂).length),
      (l₁ ++ l₂).get ⟨i, h2⟩ = l₁.get ⟨i, h⟩ := by
  intro l₁
  induction l₁ with
  | nil => intro l₂ i h; simp at h
  | cons x xs ih =>
    intro l₂ i h h2
    cases i with
    | zero => rfl
    | succ i' =>
      have h' : i' < xs.length := by simp at h; omega
      exact ih l₂ i' h' (by simp at h2 ⊢; omega)

/-- Every event emitted by the project-activation loop is a project GET or
a sleep — never an application-create POST. -/
theorem activationLoop_no_createApp (fetch : Nat → Option Json)
    (pid : String) :
    ∀ (fuel call secs : Nat) (e : Event),
      e ∈ (activationLoop fetch pid fuel call secs).2 →
      ∀ (t : ApplicationType) (b : Json), e ≠ Event.createApp t b := by
  intro fuel
  induction fuel with
  | zero => intro call secs e he; cases he
  | succ f ih =>
    intro call secs e he t b
    cases hf : fetch call with
    | none =>
      simp only [activationLoop, hf] at he
      simp at he
      subst he
      intro h
      cases h
    | some j =>
      cases hp : activationPred pid j with
      | error err =>
        simp only [activationLoop, hf, hp] at he
        simp at he
        subst he
        intro h
        cases h
      | ok bb =>
        cases bb with
        | true =>
          simp only [activationLoop, hf, hp] at he
          simp at he
          subst he
          intro h
          cases h
        | false =>
          simp only [activationLoop, hf, hp] at he
          cases hrec : activationLoop fetch pid f (call + 1) (secs + 1) with
          | mk res evs =>
            rw [hrec] at he
            simp at he
            rcases he with he | he | he
            · subst he; intro h; cases h
            · subst he; intro h; cases h
            · have hmem : e ∈ (activationLoop fetch pid f (call + 1)
                  (secs + 1)).2 := by
                rw [hrec]
                exact he
              exact ih (call + 1) (secs + 1) e hmem t b

/-- When the project-activation loop breaks with a project, its trace
contains a project GET whose response is exactly that project, and that
project satisfies the break condition. -/
theorem activationLoop_ok_mem (fetch : Nat → Option Json) (pid : String) :
    ∀ (fuel call secs : Nat) (jp : Json) (evs : List Event),
      activationLoop fetch pid fuel call secs = (PollOutcome.ok jp, evs) →
      Event.fetchProject (some jp) ∈ evs ∧
      activationPred pid jp = Except.ok true := by
  intro fuel
  induction fuel with
  | zero =>
    intro call secs jp evs h
    simp only [activationLoop] at h
    cases h
  | succ f ih =>
    intro call secs jp evs h
    cases hf : fetch call with
    | none =>
      simp only [activationLoop, hf] at h
      cases h
    | some j =>
      cases hp : activationPred pid j with
      | error err =>
        simp only [activationLoop, hf, hp] at h
        cases h
      | ok bb =>
        cases bb with
        | true =>
          simp only [activationLoop, hf, hp] at h
          have h1 : PollOutcome.ok j = PollOutcome.ok jp :=
            congrArg Prod.fst h
          have h2 : ([Event.fetchProject (some j)] : List Event) = evs :=
            congrArg Prod.snd h
          have hj : j = jp := by cases h1; rfl
          subst hj
          subst h2
          exact ⟨List.mem_singleton.mpr rfl, hp⟩
        | false =>
          simp only [activationLoop, hf, hp] at h
          cases hrec : activationLoop fetch pid f (call + 1) (secs + 1) with
          | mk res evs' =>
            rw [hrec] at h
            have hres : res = PollOutcome.ok jp := congrArg Prod.fst h
            have hevs : Event.fetchProject (some j) :: Event.sleep secs ::
                evs' = evs := congrArg Prod.snd h
            subst hres
            obtain ⟨hmem, hpred⟩ := ih (call + 1) (secs + 1) jp evs' hrec
            subst hevs
            exact ⟨List.mem_cons_of_mem _ (List.mem_cons_of_mem _ hmem), hpred⟩

/-- C6: in every run of `add_app_to_firebase_project`, any application-create
POST in the event trace is strictly preceded by a project GET whose response
satisfied the activation break condition (matching `projectId` and state
`ACTIVE`): the activation wait gates every application registration. -/
theorem c6_activation_gates_create
    (projectFetch appsFetch : Nat → Option Json) (createResp : Option Json)
    (pid pkg : String) (an sid : Option String) (t : ApplicationType)
    (fuel1 fuel2 : Nat) (res : PollOutcome (Option Json)) (evs : List Event)
    (h : add_app_to_firebase_project projectFetch appsFetch createResp pid
      pkg an sid t fuel1 fuel2 = (res, evs))
    (i : Nat) (hi : i < evs.length) (tb : ApplicationType) (b : Json)
    (hget : evs.get ⟨i, hi⟩ = Event.createApp tb b) :
    ∃ j k, ∃ hk : k < evs.length, k < i ∧
      evs.get ⟨k, hk⟩ = Event.fetchProject (some j) ∧
      activationPred pid j = Except.ok true := by
  unfold add_app_to_firebase_project at h
  cases hact : activationLoop projectFetch pid fuel1 1 1 with
  | mk r1 evs1 =>
    have hsnd : (activationLoop projectFetch pid fuel1 1 1).2 = evs1 := by
      rw [hact]
    rw [hact] at h
    cases r1 with
    | err e =>
      have hevs : evs1 = evs := congrArg Prod.snd h
      subst hevs
      have hnc := activationLoop_no_createApp projectFetch pid fuel1 1 1
        (evs1.get ⟨i, hi⟩) (by rw [hsnd]; exact List.get_mem _ _ _) tb b
      exact absurd hget hnc
    | diverged =>
      have hevs : evs1 = evs := congrArg Prod.snd h
      subst hevs
      have hnc := activationLoop_no_createApp projectFetch pid fuel1 1 1
        (evs1.get ⟨i, hi⟩) (by rw [hsnd]; exact List.get_mem _ _ _) tb b
      exact absurd hget hnc
    | ok jp =>
      cases happs : appsLoop appsFetch fuel2 1 0 with
      | mk r2 evs2 =>
        rw [happs] at h
        have hevs : evs =
            evs1 ++
              Event.createApp t
                (Json.obj (buildAppBody pkg an sid t)) :: evs2 :=
          (congrArg Prod.snd h).symm
        subst hevs
        obtain ⟨hmem, hpred⟩ :=
          activationLoop_ok_mem projectFetch pid fuel1 1 1 jp evs1 hact
        obtain ⟨k, hk1, hkget⟩ := mem_exists_get _ evs1 hmem
        have hklt : k < (evs1 ++
            Event.createApp t (Json.obj (buildAppBody pkg an sid t)) ::
              evs2).length := by
          simp
          omega
        have hik : evs1.length ≤ i := by
          by_contra hcon
          push_neg at hcon
          have hgetl := get_append_left evs1
            (Event.createApp t (Json.obj (buildAppBody pkg an sid t)) :: evs2)
            i hcon hi
          rw [hgetl] at hget
          have hnc := activationLoop_no_createApp projectFetch pid fuel1 1 1
            (evs1.get ⟨i, hcon⟩) (by rw [hsnd]; exact List.get_mem _ _ _) tb b
          exact absurd hget hnc
        refine ⟨jp, k, hklt, by omega, ?_, hpred⟩
        have hgetl := get_append_left evs1
          (Event.createApp t (Json.obj (buildAppBody pkg an sid t)) :: evs2)
          k hk1 hklt
        rw [hgetl]
        exact hkget

/-- Witness for C6: a concrete run whose trace has its create POST at index
1, preceded at index 0 by the project GET that observed the active project. -/
theorem c6_witness :
    ∃ j k, ∃ hk : k <
      ((add_app_to_firebase_project (fun _ => some activeProject)
        (fun _ => some oneAppListing) none "p1" "com.test.app.project"
        none none ApplicationType.ANDROID 1 1).2).length, k < 1 ∧
      ((add_app_to_firebase_project (fun _ => some activeProject)
        (fun _ => some oneAppListing) none "p1" "com.test.app.project"
        none none ApplicationType.ANDROID 1 1).2).get ⟨k, hk⟩ =
        Event.fetchProject (some j) ∧
      activationPred "p1" j = Except.ok true :=
  c6_activation_gates_create (fun _ => some activeProject)
    (fun _ => some oneAppListing) none "p1" "com.test.app.project"
    none none ApplicationType.ANDROID 1 1
    (PollOutcome.ok (some (Json.str "app-id-1")))
    ((add_app_to_firebase_project (fun _ => some activeProject)
      (fun _ => some oneAppListing) none "p1" "com.test.app.project"
      none none ApplicationType.ANDROID 1 1).2)
    rfl 1 (by decide) ApplicationType.ANDROID
    (Json.obj (buildAppBody "com.test.app.project" none none
      ApplicationType.ANDROID))
    rfl

/-- Lowercase hexadecimal digit for `n < 16`. -/
def hexDigit (n : Nat) : Char :=
  if n < 10 then Char.ofNat (48 + n) else Char.ofNat (87 + n)

/-- A six-character JSON escape of the form backslash-u-XXXX. -/
def uEscape (n : Nat) : List Char :=
  ['\\', 'u', hexDigit (n / 4096 % 16), hexDigit (n / 256 % 16),
   hexDigit (n / 16 % 16), hexDigit (n % 16)]

/-- Escaping of one character as performed by `json.dumps` with its default
`ensure_ascii=True`: the two-character escapes for quote, backslash and the
common control characters, a backslash-u escape for every other character
outside the printable ASCII range (as a surrogate pair above U+FFFF), and
the character itself otherwise. -/
def jsonEscapeChar (c : Char) : List Char :=
  if c = '"' then ['\\', '"']
  else if c = '\\' then ['\\', '\\']
  else if c = '\n' then ['\\', 'n']
  else if c = '\t' then ['\\', 't']
  else if c = '\r' then ['\\', 'r']
  else if c = Char.ofNat 8 then ['\\', 'b']
  else if c = Char.ofNat 12 then ['\\', 'f']
  else if c.toNat < 32 ∨ 127 ≤ c.toNat then
    if c.toNat < 65536 then uEscape c.toNat
    else uEscape (55296 + (c.toNat - 65536) / 1024) ++
         uEscape (56320 + (c.toNat - 65536) % 1024)
  else [c]

/-- Escape every character of a list in order. -/
def escapeChars : List Char → List Char
  | [] => []
  | c :: cs => jsonEscapeChar c ++ escapeChars cs

/-- A JSON string literal for `s`, as written by `json.dumps`. -/
def jsonQuote (s : String) : String :=
  String.mk ('"' :: escapeChars s.data ++ ['"'])

mutual

/-- The text produced by `json.dumps` with its default separators
(", " between items, ": " after keys) and default `ensure_ascii=True`,
as called on line 114 of gcp_client.py. -/
def jsonDumps : Json → String
  | Json.null => "null"
  | Json.bool true => "true"
  | Json.bool false => "false"
  | Json.num n => toString n
  | Json.str s => jsonQuote s
  | Json.arr xs => "[" ++ String.intercalate ", " (jsonDumpsList xs) ++ "]"
  | Json.obj kvs =>
    "\x7b" ++ String.intercalate ", " (jsonDumpsObj kvs) ++ "\x7d"

/-- Serialization of the elements of a JSON array, in order. -/
def jsonDumpsList : List Json → List String
  | [] => []
  | x :: xs => jsonDumps x :: jsonDumpsList xs

/-- Serialization of the key/value pairs of a JSON object, in order. -/
def jsonDumpsObj : List (String × Json) → List String
  | [] => []
  | (k, v) :: kvs => (jsonQuote k ++ ": " ++ jsonDumps v) :: jsonDumpsObj kvs

end

/-- Line 114 of gcp_client.py, `body = json.dumps(body) if body else None`:
the serialized request body actually handed to `requests` as `data=`.
The condition is Python truthiness of the `body` argument, so both an
absent body and an empty dict produce `None` (no request body at all);
only a non-empty dict is serialized to JSON text. -/
def serializeBody : Option (List (String × Json)) → Option String
  | some d => if d.isEmpty then none else some (jsonDumps (Json.obj d))
  | none => none

/-- The body argument `add_firebase_to_gcp_project` passes to
`_execute_api_call` (gcp_client.py line 210): the empty object. -/
def addFirebaseBody : Option (List (String × Json)) := some []

/-- C8 counterexample: the empty object passed by the Firebase-binding step
is falsy in Python, so line 114 turns it into `None` and the request
carries no body at all — it is not serialized to the JSON text of the
empty object, contradicting the claim. -/
theorem c8_counterexample :
    serializeBody addFirebaseBody = none ∧
    jsonDumps (Json.obj []) = "\x7b\x7d" ∧
    serializeBody addFirebaseBody ≠ some (jsonDumps (Json.obj [])) := by
  refine ⟨rfl, rfl, ?_⟩
  intro h
  exact Option.noConfusion h

/-- C8 (amended): a present and non-empty (hence truthy) body is serialized
to a JSON text payload and sent as the request body; an absent body — and
likewise the empty object, which Python's truthiness test conflates with
absence — results in a request with no body at all. -/
theorem c8_amended_body_serialization (d : List (String × Json))
    (hd : d ≠ []) :
    serializeBody (some d) = some (jsonDumps (Json.obj d)) ∧
    serializeBody none = none ∧
    serializeBody (some []) = none := by
  refine ⟨?_, rfl, rfl⟩
  cases d with
  | nil => exact absurd rfl hd
  | cons kv kvs => rfl

/-- Witness for the amended C8 at the project-create body of
`create_gcp_project`. -/
theorem c8_witness :
    serializeBody (some [("projectId", Json.str "my-test-project-123")]) =
      some (jsonDumps (Json.obj [("projectId",
        Json.str "my-test-project-123")])) ∧
    serializeBody none = none ∧
    serializeBody (some []) = none :=
  c8_amended_body_serialization
    [("projectId", Json.str "my-test-project-123")]
    (List.cons_ne_nil _ _)

/-- The standard base64 alphabet character for a 6-bit value. -/
def b64CharOfVal (n : Nat) : Char :=
  (String.data
    "ABCDEFGHIJKLMNOPQRSTUVWXYZabcdefghijklmnopqrstuvwxyz0123456789+/").getD
    n 'A'

/-- Index of a character in a character list, if present. -/
def idxOf (c : Char) : List Char → Option Nat
  | [] => none
  | d :: ds => if d = c then some 0 else (idxOf c ds).map (· + 1)

/-- The 6-bit value of a base64 alphabet character, if it is one. -/
def b64ValOfChar (c : Char) : Option Nat :=
  idxOf c (String.data
    "ABCDEFGHIJKLMNOPQRSTUVWXYZabcdefghijklmnopqrstuvwxyz0123456789+/")

/-- Standard base64 encoding of a byte sequence (the inverse of the
`base64.b64decode` call on line 400 of gcp_client.py, used to state the
round-trip claim: the artifact arrives base64-encoded in
`configFileContents`). -/
def b64encode : List Nat → List Char
  | [] => []
  | [b1] =>
    [b64CharOfVal (b1 / 4), b64CharOfVal (b1 % 4 * 16), '=', '=']
  | [b1, b2] =>
    [b64CharOfVal (b1 / 4), b64CharOfVal (b1 % 4 * 16 + b2 / 16),
     b64CharOfVal (b2 % 16 * 4), '=']
  | b1 :: b2 :: b3 :: rest =>
    b64CharOfVal (b1 / 4) :: b64CharOfVal (b1 % 4 * 16 + b2 / 16) ::
    b64CharOfVal (b2 % 16 * 4 + b3 / 64) :: b64CharOfVal (b3 % 64) ::
    b64encode rest

/-- Base64 decoding (`base64.b64decode`, gcp_client.py line 400) on
canonically padded input; `none` models `binascii.Error` on input this
embedding does not accept (the claims only exercise canonical encodings). -/
def b64decode : List Char → Option (List Nat)
  | [] => some []
  | c1 :: c2 :: c3 :: c4 :: rest =>
    match b64ValOfChar c1, b64ValOfChar c2 with
    | some v1, some v2 =>
      if c3 = '=' then
        if c4 = '=' ∧ rest = [] then some [v1 * 4 + v2 / 16] else none
      else
        match b64ValOfChar c3 with
        | some v3 =>
          if c4 = '=' then
            if rest = [] then some [v1 * 4 + v2 / 16, v2 % 16 * 16 + v3 / 4]
            else none
          else
            match b64ValOfChar c4 with
            | some v4 =>
              (b64decode rest).map
                (fun tl => (v1 * 4 + v2 / 16) :: (v2 % 16 * 16 + v3 / 4) ::
                  (v3 % 4 * 64 + v4) :: tl)
            | none => none
        | none => none
    | _, _ => none
  | _ => none

/-- Strict UTF-8 decoding of a byte sequence into code points, as performed
by `bytes.decode("utf8")` (gcp_client.py line 400): rejects stray or
missing continuation bytes, overlong forms, surrogates and values above
U+10FFFF — any rejection raises `UnicodeDecodeError` in the source. -/
def utf8Decode : List Nat → Option (List Nat)
  | [] => some []
  | b :: bs =>
    if b < 128 then (utf8Decode bs).map (fun tl => b :: tl)
    else if b < 194 then none
    else if b < 224 then
      match bs with
      | b2 :: bs2 =>
        if 128 ≤ b2 ∧ b2 < 192 then
          (utf8Decode bs2).map
            (fun tl => ((b - 192) * 64 + (b2 - 128)) :: tl)
        else none
      | [] => none
    else if b < 240 then
      match bs with
      | b2 :: b3 :: bs3 =>
        if ((if b = 224 then 160 else 128) ≤ b2 ∧
            b2 < (if b = 237 then 160 else 192)) ∧
           (128 ≤ b3 ∧ b3 < 192) then
          (utf8Decode bs3).map (fun tl =>
            ((b - 224) * 4096 + (b2 - 128) * 64 + (b3 - 128)) :: tl)
        else none
      | _ => none
    else if b < 245 then
      match bs with
      | b2 :: b3 :: b4 :: bs4 =>
        if ((if b = 240 then 144 else 128) ≤ b2 ∧
            b2 < (if b = 244 then 144 else 192)) ∧
           (128 ≤ b3 ∧ b3 < 192) ∧ (128 ≤ b4 ∧ b4 < 192) then
          (utf8Decode bs4).map (fun tl =>
            ((b - 240) * 262144 + (b2 - 128) * 4096 + (b3 - 128) * 64 +
              (b4 - 128)) :: tl)
        else none
      | _ => none
    else none

/-- UTF-8 encoding of a code-point sequence, as performed by `str.encode`
(gcp_client.py line 417). -/
def utf8Encode : List Nat → List Nat
  | [] => []
  | c :: cs =>
    (if c < 128 then [c]
     else if c < 2048 then [192 + c / 64, 128 + c % 64]
     else if c < 65536 then [224 + c / 4096, 128 + c / 64 % 64, 128 + c % 64]
     else [240 + c / 262144, 128 + c / 4096 % 64, 128 + c / 64 % 64,
           128 + c % 64]) ++ utf8Encode cs

/-- Where the iOS branch of `download_app_configuration` gets to with a
given `configFileContents` value (gcp_client.py lines 399-417): base64
decoding, then `.decode("utf8")` (raising `UnicodeDecodeError` on non-UTF-8
bytes, before any file is written), then `str.encode`, whose result is the
byte string handed to `plistlib.loads`.  `plistlib` itself is the external
format collaborator at the boundary; a faithful round trip requires that
the bytes handed to it are the original artifact bytes. -/
inductive IosSaveStep where
  | binasciiError
  | unicodeDecodeError
  | handedToPlistlib (bytes : List Nat)
deriving DecidableEq

/-- The iOS save path of `download_app_configuration` up to the `plistlib`
boundary: models lines 399-400 and 416-417 of gcp_client.py. -/
def download_app_configuration_ios (configFileContents : List Char) :
    IosSaveStep :=
  match b64decode configFileContents with
  | none => IosSaveStep.binasciiError
  | some raw =>
    match utf8Decode raw with
    | none => IosSaveStep.unicodeDecodeError
    | some cps => IosSaveStep.handedToPlistlib (utf8Encode cps)

/-- The 50 bytes of `plistlib.dumps({'a': 1}, fmt=FMT_BINARY)`: header
`bplist00`, a one-entry dict object (marker 0xD1), the one-character ASCII
string `a` (0x51 0x61), the integer 1 (0x10 0x01), the offset table
8/11/13 and the 32-byte trailer. -/
def bplistSample : List Nat :=
  [98, 112, 108, 105, 115, 116, 48, 48,
   209, 1, 2,
   81, 97,
   16, 1,
   8, 11, 13,
   0, 0, 0, 0, 0, 0,
   1, 1,
   0, 0, 0, 0, 0, 0, 0, 3,
   0, 0, 0, 0, 0, 0, 0, 0,
   0, 0, 0, 0, 0, 0, 0, 15]

/-- C4 evaluation at the failing input: feeding the base64 encoding of a
minimal binary property-list document through the iOS save path raises
`UnicodeDecodeError` at the `.decode("utf8")` call — byte 0xD1 at offset 8
is not valid UTF-8 — so no file is written and no round trip happens at
all.  The conjuncts also record that the base64 layer itself recovers the
document bytes exactly, isolating the UTF-8 decode as the failing step. -/
theorem c4_binary_plist_crashes :
    download_app_configuration_ios (b64encode bplistSample) =
      IosSaveStep.unicodeDecodeError ∧
    b64decode (b64encode bplistSample) = some bplistSample ∧
    utf8Decode bplistSample = none := by
  refine ⟨by decide, by decide, by decide⟩
